import Mathlib

/-!
# Verification of the `ripples` IMM driver against its specification

Shallow embedding of the two source files of the repository:

* `src/tools/imm.cc` — the `main` driver of the IMM tool: CUDA configuration
  validation, graph loading, the four execution branches (strong-scaling
  sweep, OpenMP parallel, CUDA, sequential), experiment-record construction
  (`GetExperimentRecord`) and JSON output writing.
* `src/include/ripples/configuration.h` — the command-line option
  descriptors (`GraphInputConfiguration`, `AlgorithmConfiguration`,
  `OutputConfiguration`).

Code that `imm.cc` calls but that is not part of the repository snapshot
(the IMM algorithm itself, the graph loader, the transpose, `trng::lcg64`,
wall-clock timing, `omp_get_max_threads`) is modelled as oracle parameters
(`Oracles`): the driver is embedded as a pure function of the configuration
and those oracles, and it emits an ordered trace of observable events
(console messages, graph loading, output-file opening and writing, CUDA
init/fini, IMM invocations).
-/

namespace Ripples

/-- Model of a `trng::lcg64` generator state as initialised by the driver:
`seed(s)` followed by `split(n, k)` (select sub-stream `k` of `n`).  The
driver only ever seeds and splits, so the state is fully described by these
three numbers. -/
structure Lcg64 where
  seed : Nat
  splitN : Nat
  splitK : Nat
deriving DecidableEq, Repr

/-- `imm.cc` lines 129-131: `weightGen.seed(0UL); weightGen.split(2, 0);` —
the generator handed to the graph loader. -/
def weightGenInit : Lcg64 := ⟨0, 2, 0⟩

/-- `imm.cc` lines 149-151: `generator.seed(0UL); generator.split(2, 1);` —
the generator handed to the IMM computations. -/
def samplingGenInit : Lcg64 := ⟨0, 2, 1⟩

/-- The command-line configuration `ToolConfiguration<IMMConfiguration>`.
Fields of `GraphInputConfiguration`, `AlgorithmConfiguration` and
`OutputConfiguration` are taken from `src/include/ripples/configuration.h`
(with their defaults).  The `IMMConfiguration` header is not part of the
snapshot; its fields are exactly the ones `imm.cc` reads
(`epsilon`, `OMPStrongScaling`, `cuda_parallel`, `streaming_workers`,
`streaming_gpu_workers`, `cuda_num_threads`, `cuda_block_density`,
`cuda_warp_density`).  Numeric fields whose C++ type is not visible in the
snapshot are modelled as `ℚ` (the tuning densities are compared with `0`
and for truthiness, both preserved by `ℚ`), counts as `Nat` (C++
`size_t`). -/
structure Config where
  IFileName : String := ""
  weighted : Bool := false
  undirected : Bool := false
  reload : Bool := false
  OutputFile : String := "output.json"
  k : Nat := 10
  parallel : Bool := false
  diffusionModel : String := "IC"
  epsilon : ℚ := 0
  OMPStrongScaling : Bool := false
  cuda_parallel : Bool := false
  streaming_workers : Nat := 0
  streaming_gpu_workers : Nat := 0
  cuda_num_threads : ℚ := 0
  cuda_block_density : ℚ := 0
  cuda_warp_density : ℚ := 0
deriving DecidableEq

/-- The fields of `ripples::IMMExecutionRecord` that `imm.cc` reads or
writes.  Durations are abstracted as `ℚ`. -/
structure IMMExecutionRecord where
  NumThreads : Nat
  Total : ℚ
  ThetaPrimeDeltas : List Nat
  ThetaEstimationTotal : ℚ
  ThetaEstimationGenerateRRR : ℚ
  ThetaEstimationMostInfluential : ℚ
  Theta : Nat
  GenerateRRRSets : ℚ
  FindMostInfluentialSet : ℚ
deriving DecidableEq

/-- Minimal model of `nlohmann::json` values as built by the driver. -/
inductive Json where
  | str : String → Json
  | num : ℚ → Json
  | nat : Nat → Json
  | arr : List Json → Json
  | obj : List (String × Json) → Json

/-- Diffusion model dispatch tags (`independent_cascade_tag`,
`linear_threshold_tag`). -/
inductive DiffusionTag where
  | independent_cascade
  | linear_threshold
deriving DecidableEq, Repr

/-- Execution strategy dispatch tags (`sequential_tag`, `omp_parallel_tag`,
`cuda_parallel_tag`). -/
inductive ExecTag where
  | sequential
  | omp_parallel
  | cuda_parallel
deriving DecidableEq, Repr

/-- The graph as far as the driver observes it: vertex/edge counts (for the
console log) and the internal-to-external vertex ID mapping used by
`convertID`. -/
structure Graph where
  numNodes : Nat
  numEdges : Nat
  toExternal : Nat → Nat

/-- `G.convertID(seeds.begin(), seeds.end(), seeds.begin())`: element-wise
conversion of internal vertex indices to external identifiers. -/
def Graph.convertID (G : Graph) (xs : List Nat) : List Nat :=
  xs.map G.toExternal

/-- Observable events of one driver execution, in program order. -/
inductive Event where
  | consoleError : String → Event
  | consoleWarn : String → Event
  | consoleInfo : String → Event
  | loadGraphEv : Lcg64 → Event
  | openOutput : String → Event
  | setNumThreads : Nat → Event
  | cudaInitEv : DiffusionTag → Event
  | cudaFiniEv : Event
  | runIMM : DiffusionTag → ExecTag → Lcg64 → List Nat → Event
  | writeOutput : String → Json → Event

/-- The external collaborators `imm.cc` calls into, plus environment
queries.  `imm` returns the seed list (internal IDs), the execution record,
and the advanced generator state (the C++ generator is passed to `IMM` and
its state after the call is whatever the callee left it as; an oracle that
does not advance it simply returns it unchanged).  `elapsed i` is the
wall-clock duration of the `i`-th timed region of the process.
`defaultRecord` is the default-constructed `IMMExecutionRecord`. -/
structure Oracles where
  loadGraph : Config → Lcg64 → Graph
  transpose : Graph → Graph
  imm : Graph → Nat → ℚ → Nat → Lcg64 → DiffusionTag → ExecTag →
        (List Nat × IMMExecutionRecord × Lcg64)
  elapsed : Nat → ℚ
  maxThreads : Nat
  defaultRecord : IMMExecutionRecord

/-- `GetExperimentRecord` (`imm.cc` lines 66-86): the JSON object recording
one run, with its fields in source order. -/
def GetExperimentRecord (cfg : Config) (R : IMMExecutionRecord)
    (seeds : List Nat) : Json :=
  Json.obj
    [("Algorithm", Json.str "IMM"),
     ("DiffusionModel", Json.str cfg.diffusionModel),
     ("Epsilon", Json.num cfg.epsilon),
     ("K", Json.nat cfg.k),
     ("L", Json.nat 1),
     ("NumThreads", Json.nat R.NumThreads),
     ("Total", Json.num R.Total),
     ("ThetaPrimeDeltas", Json.arr (R.ThetaPrimeDeltas.map Json.nat)),
     ("ThetaEstimation", Json.num R.ThetaEstimationTotal),
     ("ThetaEstimationGenerateRRR", Json.num R.ThetaEstimationGenerateRRR),
     ("ThetaEstimationMostInfluential",
       Json.num R.ThetaEstimationMostInfluential),
     ("Theta", Json.nat R.Theta),
     ("GenerateRRRSets", Json.num R.GenerateRRRSets),
     ("FindMostInfluentialSet", Json.num R.FindMostInfluentialSet),
     ("Seeds", Json.arr (seeds.map Json.nat))]

/-- The command-line validation block of `main` (`imm.cc` lines 107-125).
Returns the warning events it emits on success, or the error message
printed before `return -1`. -/
def cudaValidation (cfg : Config) : Except String (List Event) :=
  if cfg.cuda_parallel then
    if ¬(cfg.streaming_workers > 0 ∧
         cfg.streaming_gpu_workers ≤ cfg.streaming_workers) then
      Except.error "invalid number of streaming workers"
    else if cfg.diffusionModel = "LT" then
      if ¬(cfg.cuda_num_threads > 0 ∧ cfg.cuda_block_density > 0 ∧
           cfg.cuda_warp_density > 0) then
        Except.error "invalid CUDA configuration for LT"
      else Except.ok []
    else if cfg.diffusionModel = "IC" then
      if cfg.cuda_num_threads ≠ 0 ∨ cfg.cuda_block_density ≠ 0 ∨
         cfg.cuda_warp_density ≠ 0 then
        Except.ok [Event.consoleWarn "IC will ignore user-provided CUDA configuration"]
      else Except.ok []
    else Except.ok []
  else Except.ok []

/-- Result of one `if (diffusionModel == "IC") ... else if ... == "LT"`
dispatch: seeds, record, generator after the call, emitted events, and the
advanced timer index. -/
structure DispatchResult where
  seeds : List Nat
  R : IMMExecutionRecord
  gen : Lcg64
  events : List Event
  timer : Nat

/-- One CPU-side dispatch on the diffusion model string: calls `IMM` with
the matching tag and overwrites `R.Total` with the measured wall time; for
an unrecognised model string neither branch runs and `seeds`/`R` keep
their previous values. -/
def dispatchIMM (o : Oracles) (G : Graph) (cfg : Config) (gen : Lcg64)
    (eTag : ExecTag) (seeds0 : List Nat) (R0 : IMMExecutionRecord)
    (timer : Nat) : DispatchResult :=
  if cfg.diffusionModel = "IC" then
    let r := o.imm G cfg.k cfg.epsilon 1 gen DiffusionTag.independent_cascade eTag
    ⟨r.1, { r.2.1 with Total := o.elapsed timer }, r.2.2,
     [Event.runIMM DiffusionTag.independent_cascade eTag gen r.1], timer + 1⟩
  else if cfg.diffusionModel = "LT" then
    let r := o.imm G cfg.k cfg.epsilon 1 gen DiffusionTag.linear_threshold eTag
    ⟨r.1, { r.2.1 with Total := o.elapsed timer }, r.2.2,
     [Event.runIMM DiffusionTag.linear_threshold eTag gen r.1], timer + 1⟩
  else ⟨seeds0, R0, gen, [], timer⟩

/-- The CUDA branch dispatch (`imm.cc` lines 246-264): `cuda_init`, timed
`IMM` with `cuda_parallel_tag`, `cuda_fini`. -/
def cudaDispatch (o : Oracles) (G : Graph) (cfg : Config) (gen : Lcg64) :
    DispatchResult :=
  if cfg.diffusionModel = "IC" then
    let r := o.imm G cfg.k cfg.epsilon 1 gen DiffusionTag.independent_cascade
      ExecTag.cuda_parallel
    ⟨r.1, { r.2.1 with Total := o.elapsed 0 }, r.2.2,
     [Event.cudaInitEv DiffusionTag.independent_cascade,
      Event.runIMM DiffusionTag.independent_cascade ExecTag.cuda_parallel gen r.1,
      Event.cudaFiniEv], 1⟩
  else if cfg.diffusionModel = "LT" then
    let r := o.imm G cfg.k cfg.epsilon 1 gen DiffusionTag.linear_threshold
      ExecTag.cuda_parallel
    ⟨r.1, { r.2.1 with Total := o.elapsed 0 }, r.2.2,
     [Event.cudaInitEv DiffusionTag.linear_threshold,
      Event.runIMM DiffusionTag.linear_threshold ExecTag.cuda_parallel gen r.1,
      Event.cudaFiniEv], 1⟩
  else ⟨[], o.defaultRecord, gen, [], 0⟩

/-- Mutable state of the strong-scaling sweep loop: the `seeds`, `R`,
`generator` variables of `main`, the timer index, the accumulated
`executionLog`, and the events emitted inside the loop so far. -/
structure SweepState where
  seeds : List Nat
  R : IMMExecutionRecord
  gen : Lcg64
  timer : Nat
  log : List Json
  events : List Event

/-- One iteration of the strong-scaling loop (`imm.cc` lines 159-214) at
thread count `nt`: for `nt ≠ 1` it sets the OpenMP thread count and runs
the parallel path, for `nt = 1` the sequential path; in both cases it
stamps `R.NumThreads`, converts the seeds to external IDs, appends the
experiment record to the log, and rewrites the output file with the full
log so far (`perf.seekp(0); perf << executionLog.dump(2)`). -/
def sweepIter (o : Oracles) (G : Graph) (cfg : Config) (nt : Nat)
    (st : SweepState) : SweepState :=
  if nt ≠ 1 then
    let d := dispatchIMM o G cfg st.gen ExecTag.omp_parallel st.seeds st.R st.timer
    let R2 := { d.R with NumThreads := nt }
    let seeds2 := G.convertID d.seeds
    let log2 := st.log ++ [GetExperimentRecord cfg R2 seeds2]
    ⟨seeds2, R2, d.gen, d.timer, log2,
     st.events ++ [Event.setNumThreads nt] ++ d.events ++
       [Event.consoleInfo "IMM parallel",
        Event.writeOutput cfg.OutputFile (Json.arr log2)]⟩
  else
    let d := dispatchIMM o G cfg st.gen ExecTag.sequential st.seeds st.R st.timer
    let R2 := { d.R with NumThreads := 1 }
    let seeds2 := G.convertID d.seeds
    let log2 := st.log ++ [GetExperimentRecord cfg R2 seeds2]
    ⟨seeds2, R2, d.gen, d.timer, log2,
     st.events ++ d.events ++
       [Event.consoleInfo "IMM squential",
        Event.writeOutput cfg.OutputFile (Json.arr log2)]⟩

/-- The strong-scaling loop over a list of thread counts. -/
def sweepLoop (o : Oracles) (G : Graph) (cfg : Config) :
    List Nat → SweepState → SweepState
  | [], st => st
  | nt :: rest, st => sweepLoop o G cfg rest (sweepIter o G cfg nt st)

/-- `[n, n-1, ..., 1]`: the thread counts visited by
`for (size_t num_threads = max_threads; num_threads >= 1; --num_threads)`. -/
def countdown : Nat → List Nat
  | 0 => []
  | n + 1 => (n + 1) :: countdown n

/-- Outcome of one driver execution: the process exit code, the event
trace, and the final contents of `executionLog`. -/
structure MainResult where
  exitCode : Int
  events : List Event
  log : List Json

/-- The backward graph `G` of `main`: the loaded forward graph transposed
(`imm.cc` lines 138-139). -/
def loadedGraph (o : Oracles) (cfg : Config) : Graph :=
  o.transpose (o.loadGraph cfg weightGenInit)

/-- Events emitted between validation and branch selection: the loading
console messages around the `loadGraph` call (`imm.cc` lines 137-142). -/
def preEvents (o : Oracles) (cfg : Config) (warnEvs : List Event) : List Event :=
  warnEvs ++
    [Event.consoleInfo "Loading...",
     Event.loadGraphEv weightGenInit,
     Event.consoleInfo "Loading Done!",
     Event.consoleInfo ("Number of Nodes : " ++ toString (loadedGraph o cfg).numNodes),
     Event.consoleInfo ("Number of Edges : " ++ toString (loadedGraph o cfg).numEdges)]

/-- The strong-scaling branch (`imm.cc` lines 153-214), minus the shared
prologue: events emitted after the output file is opened, and the final
execution log. -/
def sweepBranch (o : Oracles) (G : Graph) (cfg : Config) : List Event × List Json :=
  let fin := sweepLoop o G cfg (countdown o.maxThreads)
    ⟨[], o.defaultRecord, samplingGenInit, 0, [], []⟩
  (fin.events, fin.log)

/-- The `-p` parallel branch (`imm.cc` lines 215-243). -/
def parBranch (o : Oracles) (G : Graph) (cfg : Config) : List Event × List Json :=
  let d := dispatchIMM o G cfg samplingGenInit ExecTag.omp_parallel []
    o.defaultRecord 0
  let R2 := { d.R with NumThreads := o.maxThreads }
  let exp := GetExperimentRecord cfg R2 (G.convertID d.seeds)
  (d.events ++
     [Event.consoleInfo "IMM parallel",
      Event.writeOutput cfg.OutputFile (Json.arr [exp])],
   [exp])

/-- The CUDA branch (`imm.cc` lines 244-272): `R.NumThreads` is the
constant `1`. -/
def cudaBranch (o : Oracles) (G : Graph) (cfg : Config) : List Event × List Json :=
  let d := cudaDispatch o G cfg samplingGenInit
  let R2 := { d.R with NumThreads := 1 }
  let exp := GetExperimentRecord cfg R2 (G.convertID d.seeds)
  (d.events ++
     [Event.consoleInfo "IMM CUDA",
      Event.writeOutput cfg.OutputFile (Json.arr [exp])],
   [exp])

/-- The sequential fallback branch (`imm.cc` lines 273-298). -/
def seqBranch (o : Oracles) (G : Graph) (cfg : Config) : List Event × List Json :=
  let d := dispatchIMM o G cfg samplingGenInit ExecTag.sequential []
    o.defaultRecord 0
  let R2 := { d.R with NumThreads := 1 }
  let exp := GetExperimentRecord cfg R2 (G.convertID d.seeds)
  (d.events ++
     [Event.consoleInfo "IMM squential",
      Event.writeOutput cfg.OutputFile (Json.arr [exp])],
   [exp])

/-- Branch selection of `main` (`imm.cc` lines 153, 215, 244, 273): the
strong-scaling sweep wins, then `-p`, then CUDA, then sequential.  Every
branch starts by constructing `std::ofstream perf(CFG.OutputFile)`. -/
def branchCore (o : Oracles) (G : Graph) (cfg : Config) : List Event × List Json :=
  if cfg.OMPStrongScaling then sweepBranch o G cfg
  else if cfg.parallel then parBranch o G cfg
  else if cfg.cuda_parallel then cudaBranch o G cfg
  else seqBranch o G cfg

/-- The body of `main` after validation succeeded (`imm.cc` lines
127-300): graph loading, then one of the four execution branches; every
branch returns `EXIT_SUCCESS`. -/
def mainBody (o : Oracles) (cfg : Config) (warnEvs : List Event) : MainResult :=
  ⟨0,
   preEvents o cfg warnEvs ++ [Event.openOutput cfg.OutputFile] ++
     (branchCore o (loadedGraph o cfg) cfg).1,
   (branchCore o (loadedGraph o cfg) cfg).2⟩

/-- The whole of `main` (`imm.cc` lines 100-301): validation first — on
failure the process prints one error and returns `-1` having done nothing
else — then `mainBody`, then `return EXIT_SUCCESS`. -/
def mainRun (o : Oracles) (cfg : Config) : MainResult :=
  match cudaValidation cfg with
  | Except.error msg => ⟨-1, [Event.consoleError msg], []⟩
  | Except.ok warnEvs => mainBody o cfg warnEvs

/-! ## Trace observation helpers -/

/-- Number of `IMM` invocations in a trace. -/
def countRunIMM (evs : List Event) : Nat :=
  (evs.filterMap fun e => match e with
    | Event.runIMM _ _ _ _ => some ()
    | _ => none).length

/-- The seed lists (internal IDs) returned by the successive `IMM`
invocations of a trace. -/
def runIMMSeeds (evs : List Event) : List (List Nat) :=
  evs.filterMap fun e => match e with
    | Event.runIMM _ _ _ s => some s
    | _ => none

/-- The execution-strategy tags of the successive `IMM` invocations. -/
def runIMMTags (evs : List Event) : List ExecTag :=
  evs.filterMap fun e => match e with
    | Event.runIMM _ t _ _ => some t
    | _ => none

/-- The generator states passed to the successive `IMM` invocations. -/
def runIMMGens (evs : List Event) : List Lcg64 :=
  evs.filterMap fun e => match e with
    | Event.runIMM _ _ g _ => some g
    | _ => none

/-- The generator states passed to the graph loader. -/
def loadGens (evs : List Event) : List Lcg64 :=
  evs.filterMap fun e => match e with
    | Event.loadGraphEv g => some g
    | _ => none

/-- The file names opened for output. -/
def openedOutputs (evs : List Event) : List String :=
  evs.filterMap fun e => match e with
    | Event.openOutput p => some p
    | _ => none

/-- The console error messages of a trace. -/
def errorMsgs (evs : List Event) : List String :=
  evs.filterMap fun e => match e with
    | Event.consoleError m => some m
    | _ => none

/-- The console warning messages of a trace. -/
def warnMsgs (evs : List Event) : List String :=
  evs.filterMap fun e => match e with
    | Event.consoleWarn m => some m
    | _ => none

/-- The field names of a JSON object, in order. -/
def jsonKeys : Json → List String
  | Json.obj fs => fs.map Prod.fst
  | _ => []

/-- Value of the first field with the given name in a JSON object. -/
def jsonLookup (j : Json) (key : String) : Option Json :=
  match j with
  | Json.obj fs => (fs.find? fun p => p.1 == key).map Prod.snd
  | _ => none

/-- `writesMatchLog L evs c` walks an event trace keeping a count `c` of
the `IMM` computations completed so far, and demands that every output
write encountered has as its content the JSON array of exactly the first
`c` records of the final execution log `L`: written content only ever
reports computations that completed before the write. -/
def writesMatchLog (L : List Json) : List Event → Nat → Prop
  | [], _ => True
  | e :: rest, c =>
    match e with
    | Event.runIMM _ _ _ _ => writesMatchLog L rest (c + 1)
    | Event.writeOutput _ content =>
        content = Json.arr (L.take c) ∧ writesMatchLog L rest c
    | _ => writesMatchLog L rest c

/-! ## Concrete instances for witnesses and counterexamples -/

/-- A sample execution record used to instantiate the oracles. -/
def recEx : IMMExecutionRecord :=
  ⟨1, 0, [5, 10], 0, 0, 0, 17, 0, 0⟩

/-- A sample graph: 3 internal vertices mapping to external IDs `v + 100`. -/
def graphEx : Graph := ⟨3, 2, fun v => v + 100⟩

/-- Concrete oracles for witnesses and counterexamples: the loader always
produces `graphEx`, transposition is the identity on the observed part,
`IMM` returns seeds `[0, 2]` and `recEx` leaving the generator unchanged,
wall times are `0`, the machine has 2 hardware threads. -/
def oEx : Oracles where
  loadGraph := fun _ _ => graphEx
  transpose := fun G => G
  imm := fun _ _ _ _ g _ _ => ([0, 2], recEx, g)
  elapsed := fun _ => 0
  maxThreads := 2
  defaultRecord := recEx

/-- A CUDA configuration requesting more GPU workers than total workers. -/
def cfgBadWorkers : Config :=
  { cuda_parallel := true, streaming_workers := 1, streaming_gpu_workers := 2 }

/-- A plain sequential IC configuration. -/
def cfgSeqIC : Config := { diffusionModel := "IC" }

/-- A strong-scaling sweep configuration with the IC model. -/
def cfgSweepIC : Config := { OMPStrongScaling := true, diffusionModel := "IC" }

/-- A valid CUDA IC configuration with a user-supplied tuning parameter. -/
def cfgCudaIC : Config :=
  { cuda_parallel := true, streaming_workers := 1, streaming_gpu_workers := 1,
    diffusionModel := "IC", cuda_num_threads := 8 }

/-- A configuration whose diffusion-model string is neither of the two
documented values. -/
def cfgBadModel : Config := { diffusionModel := "threshold" }

/-- A sequential IC configuration with seed-set size zero. -/
def cfgK0 : Config := { diffusionModel := "IC", k := 0 }

/-- A command-line option descriptor as registered with CLI11 in
`configuration.h`: the option name string, whether `->required()` was
attached, whether it is a boolean flag (`add_flag`) rather than a valued
option, and its group.  None of these options carries any value
validator. -/
structure CmdOption where
  names : String
  required : Bool
  isFlag : Bool
  group : String
deriving DecidableEq

/-- `GraphInputConfiguration::addCmdOptions` (configuration.h lines 65-76). -/
def graphInputOptions : List CmdOption :=
  [⟨"-i,--input-graph", true, false, "Input Options"⟩,
   ⟨"--reload-binary", false, true, "Input Options"⟩,
   ⟨"-u,--undirected", false, true, "Input Options"⟩,
   ⟨"-w,--weighted", false, true, "Input Options"⟩]

/-- `AlgorithmConfiguration::addCmdOptions` (configuration.h lines
107-118): `-k` and `-d` are required; no option attaches a validator, so
every parsed value is accepted (`k` is a C++ `size_t`, so it parses as an
unsigned integer). -/
def algorithmOptions : List CmdOption :=
  [⟨"-k,--seed-set-size", true, false, "Algorithm Options"⟩,
   ⟨"-p,--parallel", false, true, "Algorithm Options"⟩,
   ⟨"-d,--diffusion-model", true, false, "Algorithm Options"⟩]

/-- `OutputConfiguration::addCmdOptions` (configuration.h lines 89-92). -/
def outputOptions : List CmdOption :=
  [⟨"-o,--output", false, false, "Output Options"⟩]

/-- The field names `GetExperimentRecord` emits, in source order
(`imm.cc` lines 69-84). -/
def experimentRecordFields : List String :=
  ["Algorithm", "DiffusionModel", "Epsilon", "K", "L", "NumThreads", "Total",
   "ThetaPrimeDeltas", "ThetaEstimation", "ThetaEstimationGenerateRRR",
   "ThetaEstimationMostInfluential", "Theta", "GenerateRRRSets",
   "FindMostInfluentialSet", "Seeds"]

/-- The field list claim C4 enumerates, written from the claim's words
(for comparison with the source-derived `experimentRecordFields`): the
algorithm name, model, epsilon, k, L, thread count, total wall time, the
estimation sample-size increments, the four per-phase durations, Theta,
and the seeds — with no total-estimation-time field. -/
def claimedRecordFields : List String :=
  ["Algorithm", "DiffusionModel", "Epsilon", "K", "L", "NumThreads", "Total",
   "ThetaPrimeDeltas", "ThetaEstimationGenerateRRR",
   "ThetaEstimationMostInfluential", "Theta", "GenerateRRRSets",
   "FindMostInfluentialSet", "Seeds"]

/-! ## Helper lemmas -/

@[simp]
theorem countRunIMM_append (a b : List Event) :
    countRunIMM (a ++ b) = countRunIMM a + countRunIMM b := by
  simp [countRunIMM, List.filterMap_append]

@[simp]
theorem warnMsgs_append (a b : List Event) :
    warnMsgs (a ++ b) = warnMsgs a ++ warnMsgs b := by
  simp [warnMsgs, List.filterMap_append]

@[simp]
theorem errorMsgs_append (a b : List Event) :
    errorMsgs (a ++ b) = errorMsgs a ++ errorMsgs b := by
  simp [errorMsgs, List.filterMap_append]

@[simp]
theorem runIMMSeeds_append (a b : List Event) :
    runIMMSeeds (a ++ b) = runIMMSeeds a ++ runIMMSeeds b := by
  simp [runIMMSeeds, List.filterMap_append]

@[simp]
theorem runIMMTags_append (a b : List Event) :
    runIMMTags (a ++ b) = runIMMTags a ++ runIMMTags b := by
  simp [runIMMTags, List.filterMap_append]

@[simp]
theorem runIMMGens_append (a b : List Event) :
    runIMMGens (a ++ b) = runIMMGens a ++ runIMMGens b := by
  simp [runIMMGens, List.filterMap_append]

@[simp]
theorem loadGens_append (a b : List Event) :
    loadGens (a ++ b) = loadGens a ++ loadGens b := by
  simp [loadGens, List.filterMap_append]

@[simp]
theorem openedOutputs_append (a b : List Event) :
    openedOutputs (a ++ b) = openedOutputs a ++ openedOutputs b := by
  simp [openedOutputs, List.filterMap_append]

@[simp]
theorem countRunIMM_nil : countRunIMM [] = 0 := rfl

@[simp]
theorem countRunIMM_cons_runIMM (a : DiffusionTag) (b : ExecTag) (c : Lcg64)
    (d : List Nat) (evs : List Event) :
    countRunIMM (Event.runIMM a b c d :: evs) = countRunIMM evs + 1 := by
  simp [countRunIMM, List.filterMap_cons]

@[simp]
theorem countRunIMM_cons_consoleError (m : String) (evs : List Event) :
    countRunIMM (Event.consoleError m :: evs) = countRunIMM evs := by
  simp [countRunIMM, List.filterMap_cons]

@[simp]
theorem countRunIMM_cons_consoleWarn (m : String) (evs : List Event) :
    countRunIMM (Event.consoleWarn m :: evs) = countRunIMM evs := by
  simp [countRunIMM, List.filterMap_cons]

@[simp]
theorem countRunIMM_cons_consoleInfo (m : String) (evs : List Event) :
    countRunIMM (Event.consoleInfo m :: evs) = countRunIMM evs := by
  simp [countRunIMM, List.filterMap_cons]

@[simp]
theorem countRunIMM_cons_loadGraphEv (g : Lcg64) (evs : List Event) :
    countRunIMM (Event.loadGraphEv g :: evs) = countRunIMM evs := by
  simp [countRunIMM, List.filterMap_cons]

@[simp]
theorem countRunIMM_cons_openOutput (p : String) (evs : List Event) :
    countRunIMM (Event.openOutput p :: evs) = countRunIMM evs := by
  simp [countRunIMM, List.filterMap_cons]

@[simp]
theorem countRunIMM_cons_setNumThreads (n : Nat) (evs : List Event) :
    countRunIMM (Event.setNumThreads n :: evs) = countRunIMM evs := by
  simp [countRunIMM, List.filterMap_cons]

@[simp]
theorem countRunIMM_cons_cudaInitEv (t : DiffusionTag) (evs : List Event) :
    countRunIMM (Event.cudaInitEv t :: evs) = countRunIMM evs := by
  simp [countRunIMM, List.filterMap_cons]

@[simp]
theorem countRunIMM_cons_cudaFiniEv (evs : List Event) :
    countRunIMM (Event.cudaFiniEv :: evs) = countRunIMM evs := by
  simp [countRunIMM, List.filterMap_cons]

@[simp]
theorem countRunIMM_cons_writeOutput (p : String) (c : Json) (evs : List Event) :
    countRunIMM (Event.writeOutput p c :: evs) = countRunIMM evs := by
  simp [countRunIMM, List.filterMap_cons]

theorem cudaValidation_error_workers (cfg : Config)
    (hc : cfg.cuda_parallel = true)
    (hbad : ¬(0 < cfg.streaming_workers ∧
              cfg.streaming_gpu_workers ≤ cfg.streaming_workers)) :
    cudaValidation cfg = Except.error "invalid number of streaming workers" := by
  unfold cudaValidation
  simp [hc, hbad]

theorem cudaValidation_error_lt (cfg : Config)
    (hc : cfg.cuda_parallel = true)
    (hw : 0 < cfg.streaming_workers ∧
          cfg.streaming_gpu_workers ≤ cfg.streaming_workers)
    (hlt : cfg.diffusionModel = "LT")
    (hbad : ¬(0 < cfg.cuda_num_threads ∧ 0 < cfg.cuda_block_density ∧
              0 < cfg.cuda_warp_density)) :
    cudaValidation cfg = Except.error "invalid CUDA configuration for LT" := by
  unfold cudaValidation
  simp [hc, hw.1, hw.2, hlt, hbad]

/-- If the CUDA checks pass (vacuously when CUDA mode is off), validation
succeeds with some list of warnings. -/
theorem cudaValidation_ok (cfg : Config)
    (hworkers : cfg.cuda_parallel = true →
      0 < cfg.streaming_workers ∧
      cfg.streaming_gpu_workers ≤ cfg.streaming_workers)
    (htuning : cfg.cuda_parallel = true → cfg.diffusionModel = "LT" →
      0 < cfg.cuda_num_threads ∧ 0 < cfg.cuda_block_density ∧
      0 < cfg.cuda_warp_density) :
    ∃ w, cudaValidation cfg = Except.ok w := by
  by_cases hc : cfg.cuda_parallel = true
  · have hw := hworkers hc
    by_cases hlt : cfg.diffusionModel = "LT"
    · exact ⟨[], by unfold cudaValidation; simp [hc, hw.1, hw.2, hlt, htuning hc hlt]⟩
    · by_cases hic : cfg.diffusionModel = "IC"
      · by_cases hnz : cfg.cuda_num_threads ≠ 0 ∨ cfg.cuda_block_density ≠ 0 ∨
            cfg.cuda_warp_density ≠ 0
        · exact ⟨[Event.consoleWarn "IC will ignore user-provided CUDA configuration"],
            by unfold cudaValidation; simp [hc, hw.1, hw.2, hlt, hic, hnz]⟩
        · exact ⟨[], by unfold cudaValidation; simp [hc, hw.1, hw.2, hlt, hic, hnz]⟩
      · exact ⟨[], by unfold cudaValidation; simp [hc, hw.1, hw.2, hlt, hic]⟩
  · exact ⟨[], by unfold cudaValidation; simp [hc]⟩

theorem mainRun_of_error (o : Oracles) (cfg : Config) (msg : String)
    (h : cudaValidation cfg = Except.error msg) :
    mainRun o cfg = ⟨-1, [Event.consoleError msg], []⟩ := by
  unfold mainRun
  rw [h]

theorem mainRun_of_ok (o : Oracles) (cfg : Config) (w : List Event)
    (h : cudaValidation cfg = Except.ok w) :
    mainRun o cfg = mainBody o cfg w := by
  unfold mainRun
  rw [h]

theorem mainBody_exitCode (o : Oracles) (cfg : Config) (w : List Event) :
    (mainBody o cfg w).exitCode = 0 := rfl

/-! ## Claim theorems -/

/-- C1: with `--cuda-parallel`, a streaming-worker configuration with zero
total workers or more GPU workers than total workers makes the process
print `"invalid number of streaming workers"` and exit with `-1` before
any graph loading, IMM sampling, or output-file creation happens (the
whole trace is that one diagnostic, and the execution log stays empty);
when the worker and tuning validation passes, the driver runs to
completion and exits with status `0`. -/
theorem gpu_worker_count_validation (o : Oracles) (cfg : Config)
    (hc : cfg.cuda_parallel = true) :
    (¬(0 < cfg.streaming_workers ∧
       cfg.streaming_gpu_workers ≤ cfg.streaming_workers) →
      (mainRun o cfg).exitCode = -1 ∧
      (mainRun o cfg).events =
        [Event.consoleError "invalid number of streaming workers"] ∧
      (mainRun o cfg).log = []) ∧
    ((0 < cfg.streaming_workers ∧
      cfg.streaming_gpu_workers ≤ cfg.streaming_workers) →
     (cfg.diffusionModel = "LT" →
       0 < cfg.cuda_num_threads ∧ 0 < cfg.cuda_block_density ∧
       0 < cfg.cuda_warp_density) →
     (mainRun o cfg).exitCode = 0) := by
  constructor
  · intro hbad
    rw [mainRun_of_error o cfg _ (cudaValidation_error_workers cfg hc hbad)]
    exact ⟨rfl, rfl, rfl⟩
  · intro hgood htuning
    obtain ⟨w, hw⟩ := cudaValidation_ok cfg (fun _ => hgood) (fun _ => htuning)
    rw [mainRun_of_ok o cfg w hw]
    exact mainBody_exitCode o cfg w

/-- C1 witness: requesting 2 GPU workers out of 1 total worker is rejected
with exit code `-1`, a single diagnostic, and an empty log. -/
theorem gpu_worker_count_validation_witness :
    (mainRun oEx cfgBadWorkers).exitCode = -1 ∧
    (mainRun oEx cfgBadWorkers).events =
      [Event.consoleError "invalid number of streaming workers"] ∧
    (mainRun oEx cfgBadWorkers).log = [] :=
  (gpu_worker_count_validation oEx cfgBadWorkers rfl).1 (by decide)


/-- C2: with `--cuda-parallel` and valid streaming-worker counts, the LT
model demands all three device-tuning parameters positive — otherwise the
process prints `"invalid CUDA configuration for LT"` and exits `-1` with
no IMM sampling — while the IC model with any nonzero tuning parameter
merely warns `"IC will ignore user-provided CUDA configuration"` and runs
to completion with exit status 0. -/
theorem cuda_tuning_validation (o : Oracles) (cfg : Config)
    (hc : cfg.cuda_parallel = true)
    (hw : 0 < cfg.streaming_workers ∧
          cfg.streaming_gpu_workers ≤ cfg.streaming_workers) :
    (cfg.diffusionModel = "LT" →
      ¬(0 < cfg.cuda_num_threads ∧ 0 < cfg.cuda_block_density ∧
        0 < cfg.cuda_warp_density) →
      (mainRun o cfg).exitCode = -1 ∧
      (mainRun o cfg).events =
        [Event.consoleError "invalid CUDA configuration for LT"] ∧
      countRunIMM (mainRun o cfg).events = 0) ∧
    (cfg.diffusionModel = "IC" →
      (cfg.cuda_num_threads ≠ 0 ∨ cfg.cuda_block_density ≠ 0 ∨
       cfg.cuda_warp_density ≠ 0) →
      (mainRun o cfg).exitCode = 0 ∧
      "IC will ignore user-provided CUDA configuration" ∈
        warnMsgs (mainRun o cfg).events) := by
  constructor
  · intro hlt hbad
    rw [mainRun_of_error o cfg _ (cudaValidation_error_lt cfg hc hw hlt hbad)]
    exact ⟨rfl, rfl, rfl⟩
  · intro hic hnz
    have hval : cudaValidation cfg =
        Except.ok [Event.consoleWarn "IC will ignore user-provided CUDA configuration"] := by
      unfold cudaValidation
      have hlt : ¬cfg.diffusionModel = "LT" := by
        rw [hic]; decide
      simp [hc, hw.1, hw.2, hlt, hic, hnz]
    rw [mainRun_of_ok o cfg _ hval]
    refine ⟨rfl, ?_⟩
    show _ ∈ warnMsgs (mainBody o cfg _).events
    unfold mainBody preEvents
    simp [warnMsgs]

theorem branchCore_sweep (o : Oracles) (G : Graph) (cfg : Config)
    (hss : cfg.OMPStrongScaling = true) :
    branchCore o G cfg = sweepBranch o G cfg := by
  unfold branchCore; simp [hss]

theorem branchCore_par (o : Oracles) (G : Graph) (cfg : Config)
    (hss : cfg.OMPStrongScaling = false) (hp : cfg.parallel = true) :
    branchCore o G cfg = parBranch o G cfg := by
  unfold branchCore; simp [hss, hp]

theorem branchCore_cuda (o : Oracles) (G : Graph) (cfg : Config)
    (hss : cfg.OMPStrongScaling = false) (hp : cfg.parallel = false)
    (hc : cfg.cuda_parallel = true) :
    branchCore o G cfg = cudaBranch o G cfg := by
  unfold branchCore; simp [hss, hp, hc]

theorem branchCore_seq (o : Oracles) (G : Graph) (cfg : Config)
    (hss : cfg.OMPStrongScaling = false) (hp : cfg.parallel = false)
    (hc : cfg.cuda_parallel = false) :
    branchCore o G cfg = seqBranch o G cfg := by
  unfold branchCore; simp [hss, hp, hc]

theorem mainBody_log (o : Oracles) (cfg : Config) (w : List Event) :
    (mainBody o cfg w).log = (branchCore o (loadedGraph o cfg) cfg).2 := rfl

theorem mainBody_events (o : Oracles) (cfg : Config) (w : List Event) :
    (mainBody o cfg w).events =
      preEvents o cfg w ++ [Event.openOutput cfg.OutputFile] ++
        (branchCore o (loadedGraph o cfg) cfg).1 := rfl

/-- The `NumThreads` field of an experiment record is the record's thread
count. -/
theorem jsonLookup_record_numThreads (cfg : Config) (R : IMMExecutionRecord)
    (s : List Nat) :
    jsonLookup (GetExperimentRecord cfg R s) "NumThreads" =
      some (Json.nat R.NumThreads) := rfl

/-- The `Seeds` field of an experiment record is the seed list it was
built from. -/
theorem jsonLookup_record_seeds (cfg : Config) (R : IMMExecutionRecord)
    (s : List Nat) :
    jsonLookup (GetExperimentRecord cfg R s) "Seeds" =
      some (Json.arr (s.map Json.nat)) := rfl

/-- Every experiment record carries exactly the source-ordered field
list, including `"ThetaEstimation"`. -/
theorem jsonKeys_record (cfg : Config) (R : IMMExecutionRecord)
    (s : List Nat) :
    jsonKeys (GetExperimentRecord cfg R s) = experimentRecordFields := rfl

/-- C2 witness: the IC model with `cuda_num_threads = 8` supplied warns
and completes with exit status 0. -/
theorem cuda_tuning_validation_witness :
    (mainRun oEx cfgCudaIC).exitCode = 0 ∧
    "IC will ignore user-provided CUDA configuration" ∈
      warnMsgs (mainRun oEx cfgCudaIC).events :=
  (cuda_tuning_validation oEx cfgCudaIC rfl (by decide)).2 rfl
    (Or.inl (by norm_num [cfgCudaIC]))

theorem sweepLoop_cons (o : Oracles) (G : Graph) (cfg : Config) (nt : Nat)
    (rest : List Nat) (st : SweepState) :
    sweepLoop o G cfg (nt :: rest) st =
      sweepLoop o G cfg rest (sweepIter o G cfg nt st) := rfl

/-- Under a recognised diffusion model one sweep iteration has this
closed form: a timed `IMM` run dispatched on the model tag, executed
sequentially exactly when the thread count is 1, the thread count stamped
into the record, seeds converted to external IDs, the new record appended
to the log, and the whole log rewritten to the output file. -/
theorem sweepIter_model (o : Oracles) (G : Graph) (cfg : Config) (nt : Nat)
    (st : SweepState)
    (hmodel : cfg.diffusionModel = "IC" ∨ cfg.diffusionModel = "LT") :
    ∃ (tag : DiffusionTag) (r : List Nat × IMMExecutionRecord × Lcg64),
      r = o.imm G cfg.k cfg.epsilon 1 st.gen tag
            (if nt = 1 then ExecTag.sequential else ExecTag.omp_parallel) ∧
      sweepIter o G cfg nt st =
        { seeds := G.convertID r.1,
          R := { { r.2.1 with Total := o.elapsed st.timer } with NumThreads := nt },
          gen := r.2.2,
          timer := st.timer + 1,
          log := st.log ++ [GetExperimentRecord cfg
            { { r.2.1 with Total := o.elapsed st.timer } with NumThreads := nt }
            (G.convertID r.1)],
          events := st.events ++
            ((if nt = 1 then [] else [Event.setNumThreads nt]) ++
             [Event.runIMM tag
                (if nt = 1 then ExecTag.sequential else ExecTag.omp_parallel)
                st.gen r.1,
              Event.consoleInfo (if nt = 1 then "IMM squential" else "IMM parallel"),
              Event.writeOutput cfg.OutputFile (Json.arr (st.log ++
                [GetExperimentRecord cfg
                  { { r.2.1 with Total := o.elapsed st.timer } with NumThreads := nt }
                  (G.convertID r.1)]))]) } := by
  rcases hmodel with h | h
  · by_cases h1 : nt = 1
    · subst h1
      refine ⟨DiffusionTag.independent_cascade, _, rfl, ?_⟩
      unfold sweepIter dispatchIMM
      simp [h]
    · refine ⟨DiffusionTag.independent_cascade, _, rfl, ?_⟩
      unfold sweepIter dispatchIMM
      simp [h, h1]
  · have hnic : ¬cfg.diffusionModel = "IC" := by rw [h]; decide
    by_cases h1 : nt = 1
    · subst h1
      refine ⟨DiffusionTag.linear_threshold, _, rfl, ?_⟩
      unfold sweepIter dispatchIMM
      simp [h, hnic]
    · refine ⟨DiffusionTag.linear_threshold, _, rfl, ?_⟩
      unfold sweepIter dispatchIMM
      simp [h, hnic, h1]

@[simp]
theorem countdown_length (n : Nat) : (countdown n).length = n := by
  induction n with
  | zero => rfl
  | succ m ih => simp [countdown, ih]

theorem countdown_get? (n : Nat) :
    ∀ i, i < n → (countdown n).get? i = some (n - i) := by
  induction n with
  | zero => intro i h; cases h
  | succ m ih =>
    intro i hi
    cases i with
    | zero => rfl
    | succ j =>
      have hj : j < m := Nat.lt_of_succ_lt_succ hi
      show (countdown m).get? j = _
      rw [ih j hj]
      congr 1
      omega

theorem countdown_chain (n : Nat) :
    List.Chain' (fun a b => b < a) (countdown n) := by
  induction n with
  | zero => exact List.chain'_nil
  | succ m ih =>
    cases m with
    | zero => simp [countdown]
    | succ l =>
      rw [countdown, countdown, List.chain'_cons, ← countdown]
      exact ⟨Nat.lt_succ_self _, ih⟩

/-- The only warning lists validation can succeed with: nothing, or the
single IC tuning warning. -/
theorem cudaValidation_ok_shape (cfg : Config) (w : List Event)
    (h : cudaValidation cfg = Except.ok w) :
    w = [] ∨
    w = [Event.consoleWarn "IC will ignore user-provided CUDA configuration"] := by
  unfold cudaValidation at h
  split at h
  · split at h
    · cases h
    · split at h
      · split at h
        · cases h
        · cases h; exact Or.inl rfl
      · split at h
        · split at h
          · cases h; exact Or.inr rfl
          · cases h; exact Or.inl rfl
        · cases h; exact Or.inl rfl
  · cases h; exact Or.inl rfl

/-- The prologue of every successful run contains no IMM invocation, no
output-file activity, and exactly one graph load, which uses the
constant weight generator. -/
theorem preEvents_shape (o : Oracles) (cfg : Config) (w : List Event)
    (hw : cudaValidation cfg = Except.ok w) :
    runIMMTags (preEvents o cfg w) = [] ∧
    countRunIMM (preEvents o cfg w) = 0 ∧
    runIMMSeeds (preEvents o cfg w) = [] ∧
    runIMMGens (preEvents o cfg w) = [] ∧
    loadGens (preEvents o cfg w) = [weightGenInit] ∧
    openedOutputs (preEvents o cfg w) = [] ∧
    (∀ p c, Event.writeOutput p c ∉ preEvents o cfg w) := by
  rcases cudaValidation_ok_shape cfg w hw with h | h <;> subst h <;>
    simp [preEvents, runIMMTags, countRunIMM, runIMMSeeds, runIMMGens,
      loadGens, openedOutputs]

/-- Sweep induction for C6: the log's thread counts extend by the visited
thread-count list, and the IMM execution tags extend by `sequential`
exactly at thread count 1. -/
theorem sweepLoop_threads_tags (o : Oracles) (G : Graph) (cfg : Config)
    (hmodel : cfg.diffusionModel = "IC" ∨ cfg.diffusionModel = "LT")
    (nts : List Nat) :
    ∀ st : SweepState,
      (sweepLoop o G cfg nts st).log.map (fun j => jsonLookup j "NumThreads") =
        st.log.map (fun j => jsonLookup j "NumThreads") ++
          nts.map (fun n => some (Json.nat n)) ∧
      runIMMTags (sweepLoop o G cfg nts st).events =
        runIMMTags st.events ++
          nts.map (fun n => if n = 1 then ExecTag.sequential
                            else ExecTag.omp_parallel) := by
  induction nts with
  | nil => intro st; simp [sweepLoop]
  | cons nt rest ih =>
    intro st
    obtain ⟨tag, r, hr, hiter⟩ := sweepIter_model o G cfg nt st hmodel
    rw [sweepLoop_cons]
    obtain ⟨ih1, ih2⟩ := ih (sweepIter o G cfg nt st)
    rw [ih1, ih2, hiter]
    by_cases h1 : nt = 1 <;>
      simp [h1, runIMMTags, jsonLookup_record_numThreads]

/-- C6: with the strong-scaling flag set (validation passed, model
recognised), the driver runs one full IMM computation per thread count:
the log's `NumThreads` fields are exactly `[maxThreads, ..., 1]` in that
order, the IMM invocations use the sequential path exactly at thread
count 1 and the parallel path elsewhere, and the visited thread-count
list is the strictly decreasing enumeration from the hardware maximum
down to 1. -/
theorem strong_scaling_sweep (o : Oracles) (cfg : Config)
    (hss : cfg.OMPStrongScaling = true)
    (hval : ∃ w, cudaValidation cfg = Except.ok w)
    (hmodel : cfg.diffusionModel = "IC" ∨ cfg.diffusionModel = "LT") :
    (mainRun o cfg).log.map (fun j => jsonLookup j "NumThreads") =
      (countdown o.maxThreads).map (fun n => some (Json.nat n)) ∧
    runIMMTags (mainRun o cfg).events =
      (countdown o.maxThreads).map
        (fun n => if n = 1 then ExecTag.sequential else ExecTag.omp_parallel) ∧
    (countdown o.maxThreads).length = o.maxThreads ∧
    (∀ i, i < o.maxThreads →
      (countdown o.maxThreads).get? i = some (o.maxThreads - i)) ∧
    List.Chain' (fun a b => b < a) (countdown o.maxThreads) := by
  obtain ⟨w, hw⟩ := hval
  rw [mainRun_of_ok o cfg w hw]
  have hbc := branchCore_sweep o (loadedGraph o cfg) cfg hss
  obtain ⟨hlog, htags⟩ := sweepLoop_threads_tags o (loadedGraph o cfg) cfg hmodel
    (countdown o.maxThreads) ⟨[], o.defaultRecord, samplingGenInit, 0, [], []⟩
  obtain ⟨hpt, -, -, -, -, -, -⟩ := preEvents_shape o cfg w hw
  refine ⟨?_, ?_, countdown_length o.maxThreads,
    countdown_get? o.maxThreads, countdown_chain o.maxThreads⟩
  · rw [mainBody_log, hbc]
    unfold sweepBranch
    simpa using hlog
  · rw [mainBody_events, hbc]
    unfold sweepBranch
    rw [runIMMTags_append, runIMMTags_append, hpt, htags]
    simp [runIMMTags]

/-- C6 witness: on the 2-thread sample oracles, the sweep produces the
thread counts `[2, 1]` with the parallel path first, then the sequential
path. -/
theorem strong_scaling_sweep_witness :
    (mainRun oEx cfgSweepIC).log.map (fun j => jsonLookup j "NumThreads") =
      [some (Json.nat 2), some (Json.nat 1)] ∧
    runIMMTags (mainRun oEx cfgSweepIC).events =
      [ExecTag.omp_parallel, ExecTag.sequential] :=
  ⟨(strong_scaling_sweep oEx cfgSweepIC rfl ⟨[], rfl⟩ (Or.inl rfl)).1,
   (strong_scaling_sweep oEx cfgSweepIC rfl ⟨[], rfl⟩ (Or.inl rfl)).2.1⟩

/-- Under a recognised model, a CPU dispatch is one timed `IMM` call. -/
theorem dispatchIMM_model (o : Oracles) (G : Graph) (cfg : Config) (gen : Lcg64)
    (eTag : ExecTag) (s0 : List Nat) (R0 : IMMExecutionRecord) (t : Nat)
    (hmodel : cfg.diffusionModel = "IC" ∨ cfg.diffusionModel = "LT") :
    ∃ tag,
      dispatchIMM o G cfg gen eTag s0 R0 t =
        { seeds := (o.imm G cfg.k cfg.epsilon 1 gen tag eTag).1,
          R := { (o.imm G cfg.k cfg.epsilon 1 gen tag eTag).2.1 with
                   Total := o.elapsed t },
          gen := (o.imm G cfg.k cfg.epsilon 1 gen tag eTag).2.2,
          events := [Event.runIMM tag eTag gen
                      (o.imm G cfg.k cfg.epsilon 1 gen tag eTag).1],
          timer := t + 1 } := by
  rcases hmodel with h | h
  · exact ⟨DiffusionTag.independent_cascade, by unfold dispatchIMM; simp [h]⟩
  · refine ⟨DiffusionTag.linear_threshold, ?_⟩
    have hnic : ¬cfg.diffusionModel = "IC" := by rw [h]; decide
    unfold dispatchIMM; simp [h, hnic]

/-- Under a recognised model, the CUDA dispatch is `cuda_init`, one timed
`IMM` call with the CUDA tag, and `cuda_fini`. -/
theorem cudaDispatch_model (o : Oracles) (G : Graph) (cfg : Config) (gen : Lcg64)
    (hmodel : cfg.diffusionModel = "IC" ∨ cfg.diffusionModel = "LT") :
    ∃ tag,
      cudaDispatch o G cfg gen =
        { seeds := (o.imm G cfg.k cfg.epsilon 1 gen tag ExecTag.cuda_parallel).1,
          R := { (o.imm G cfg.k cfg.epsilon 1 gen tag ExecTag.cuda_parallel).2.1 with
                   Total := o.elapsed 0 },
          gen := (o.imm G cfg.k cfg.epsilon 1 gen tag ExecTag.cuda_parallel).2.2,
          events := [Event.cudaInitEv tag,
                     Event.runIMM tag ExecTag.cuda_parallel gen
                       (o.imm G cfg.k cfg.epsilon 1 gen tag ExecTag.cuda_parallel).1,
                     Event.cudaFiniEv],
          timer := 1 } := by
  rcases hmodel with h | h
  · exact ⟨DiffusionTag.independent_cascade, by unfold cudaDispatch; simp [h]⟩
  · refine ⟨DiffusionTag.linear_threshold, ?_⟩
    have hnic : ¬cfg.diffusionModel = "IC" := by rw [h]; decide
    unfold cudaDispatch; simp [h, hnic]

/-- Sweep induction for C5: the correspondence "each record's `Seeds`
field is the ID-converted seed list of its IMM run" is preserved by the
sweep. -/
theorem sweepLoop_seeds (o : Oracles) (G : Graph) (cfg : Config)
    (hmodel : cfg.diffusionModel = "IC" ∨ cfg.diffusionModel = "LT")
    (nts : List Nat) :
    ∀ st : SweepState,
      st.log.map (fun j => jsonLookup j "Seeds") =
        (runIMMSeeds st.events).map
          (fun s => some (Json.arr ((G.convertID s).map Json.nat))) →
      (sweepLoop o G cfg nts st).log.map (fun j => jsonLookup j "Seeds") =
        (runIMMSeeds (sweepLoop o G cfg nts st).events).map
          (fun s => some (Json.arr ((G.convertID s).map Json.nat))) := by
  induction nts with
  | nil => intro st h; simpa [sweepLoop] using h
  | cons nt rest ih =>
    intro st h
    rw [sweepLoop_cons]
    apply ih
    obtain ⟨tag, r, hr, hiter⟩ := sweepIter_model o G cfg nt st hmodel
    rw [hiter]
    by_cases h1 : nt = 1 <;>
      simp [h1, runIMMSeeds, jsonLookup_record_seeds, h]

/-- Sweep induction for C4: every appended log entry is an experiment
record with the full field list, one entry is appended per IMM run, and
everything written to the output file is a JSON array. -/
theorem sweepLoop_records (o : Oracles) (G : Graph) (cfg : Config)
    (hmodel : cfg.diffusionModel = "IC" ∨ cfg.diffusionModel = "LT")
    (nts : List Nat) :
    ∀ st : SweepState,
      (∀ j ∈ st.log, jsonKeys j = experimentRecordFields) →
      (∀ p c, Event.writeOutput p c ∈ st.events → ∃ l, c = Json.arr l) →
      (∀ j ∈ (sweepLoop o G cfg nts st).log,
        jsonKeys j = experimentRecordFields) ∧
      (sweepLoop o G cfg nts st).log.length = st.log.length + nts.length ∧
      countRunIMM (sweepLoop o G cfg nts st).events =
        countRunIMM st.events + nts.length ∧
      (∀ p c, Event.writeOutput p c ∈ (sweepLoop o G cfg nts st).events →
        ∃ l, c = Json.arr l) := by
  induction nts with
  | nil => intro st hkeys hwrites; exact ⟨hkeys, rfl, rfl, hwrites⟩
  | cons nt rest ih =>
    intro st hkeys hwrites
    obtain ⟨tag, r, hr, hiter⟩ := sweepIter_model o G cfg nt st hmodel
    rw [sweepLoop_cons]
    have hkeys' : ∀ j ∈ (sweepIter o G cfg nt st).log,
        jsonKeys j = experimentRecordFields := by
      rw [hiter]
      intro j hj
      rcases List.mem_append.mp hj with hj | hj
      · exact hkeys j hj
      · rw [List.mem_singleton.mp hj]; exact jsonKeys_record ..
    have hwrites' : ∀ p c, Event.writeOutput p c ∈ (sweepIter o G cfg nt st).events →
        ∃ l, c = Json.arr l := by
      rw [hiter]
      intro p c hpc
      rcases List.mem_append.mp hpc with hpc | hpc
      · exact hwrites p c hpc
      · by_cases h1 : nt = 1 <;> simp [h1] at hpc <;>
          exact ⟨_, hpc.2⟩
    obtain ⟨k1, k2, k3, k4⟩ := ih (sweepIter o G cfg nt st) hkeys' hwrites'
    refine ⟨k1, ?_, ?_, k4⟩
    · rw [k2, hiter]
      simp
      omega
    · rw [k3, hiter]
      by_cases h1 : nt = 1 <;> simp [h1, countRunIMM] <;> omega

/-- C5: in every execution branch, each record's serialized `Seeds` field
is exactly the seed list returned by its IMM run converted through the
graph's internal-to-external ID mapping. -/
theorem seeds_externalized (o : Oracles) (cfg : Config)
    (hmodel : cfg.diffusionModel = "IC" ∨ cfg.diffusionModel = "LT") :
    (mainRun o cfg).log.map (fun j => jsonLookup j "Seeds") =
      (runIMMSeeds (mainRun o cfg).events).map
        (fun s => some (Json.arr
          (((loadedGraph o cfg).convertID s).map Json.nat))) := by
  cases hvc : cudaValidation cfg with
  | error msg => rw [mainRun_of_error o cfg msg hvc]; simp [runIMMSeeds]
  | ok w =>
    rw [mainRun_of_ok o cfg w hvc, mainBody_log, mainBody_events]
    obtain ⟨-, -, hps, -, -, -, -⟩ := preEvents_shape o cfg w hvc
    rw [runIMMSeeds_append, runIMMSeeds_append, hps]
    have hopen : runIMMSeeds [Event.openOutput cfg.OutputFile] = [] := rfl
    rw [hopen]
    simp only [List.nil_append, List.append_nil]
    by_cases hss : cfg.OMPStrongScaling = true
    · rw [branchCore_sweep o _ cfg hss]
      unfold sweepBranch
      exact sweepLoop_seeds o (loadedGraph o cfg) cfg hmodel
        (countdown o.maxThreads) ⟨[], o.defaultRecord, samplingGenInit, 0, [], []⟩
        (by simp [runIMMSeeds])
    · rw [Bool.not_eq_true] at hss
      by_cases hp : cfg.parallel = true
      · rw [branchCore_par o _ cfg hss hp]
        obtain ⟨tag, hd⟩ := dispatchIMM_model o (loadedGraph o cfg) cfg
          samplingGenInit ExecTag.omp_parallel [] o.defaultRecord 0 hmodel
        unfold parBranch
        rw [hd]
        simp [runIMMSeeds, jsonLookup_record_seeds]
      · rw [Bool.not_eq_true] at hp
        by_cases hc : cfg.cuda_parallel = true
        · rw [branchCore_cuda o _ cfg hss hp hc]
          obtain ⟨tag, hd⟩ := cudaDispatch_model o (loadedGraph o cfg) cfg
            samplingGenInit hmodel
          unfold cudaBranch
          rw [hd]
          simp [runIMMSeeds, jsonLookup_record_seeds]
        · rw [Bool.not_eq_true] at hc
          rw [branchCore_seq o _ cfg hss hp hc]
          obtain ⟨tag, hd⟩ := dispatchIMM_model o (loadedGraph o cfg) cfg
            samplingGenInit ExecTag.sequential [] o.defaultRecord 0 hmodel
          unfold seqBranch
          rw [hd]
          simp [runIMMSeeds, jsonLookup_record_seeds]

/-- C5 witness: in the sequential IC run of the sample oracles the single
record's `Seeds` field is `[100, 102]` — the IMM seeds `[0, 2]` through
the external mapping `v + 100`. -/
theorem seeds_externalized_witness :
    (mainRun oEx cfgSeqIC).log.map (fun j => jsonLookup j "Seeds") =
      [some (Json.arr [Json.nat 100, Json.nat 102])] :=
  seeds_externalized oEx cfgSeqIC (Or.inl rfl)

theorem writesMatchLog_append (L : List Json) (a b : List Event) (c : Nat) :
    writesMatchLog L (a ++ b) c ↔
      writesMatchLog L a c ∧ writesMatchLog L b (c + countRunIMM a) := by
  induction a generalizing c with
  | nil => simp [writesMatchLog, countRunIMM]
  | cons e rest ih =>
    cases e <;>
      simp [writesMatchLog, countRunIMM, List.filterMap_cons, ih,
        Nat.add_assoc, Nat.add_comm, Nat.add_left_comm, and_assoc]

/-- Each sweep iteration appends exactly one record to the log. -/
theorem sweepIter_log (o : Oracles) (G : Graph) (cfg : Config) (nt : Nat)
    (st : SweepState) :
    ∃ rec, (sweepIter o G cfg nt st).log = st.log ++ [rec] := by
  unfold sweepIter
  by_cases h1 : nt = 1 <;> simp [h1]

/-- The sweep only ever appends to the log. -/
theorem sweepLoop_log_extends (o : Oracles) (G : Graph) (cfg : Config)
    (nts : List Nat) :
    ∀ st : SweepState,
      ∃ tail, (sweepLoop o G cfg nts st).log = st.log ++ tail := by
  induction nts with
  | nil => intro st; exact ⟨[], by simp [sweepLoop]⟩
  | cons nt rest ih =>
    intro st
    rw [sweepLoop_cons]
    obtain ⟨tail, htail⟩ := ih (sweepIter o G cfg nt st)
    obtain ⟨rec, hrec⟩ := sweepIter_log o G cfg nt st
    exact ⟨[rec] ++ tail, by rw [htail, hrec, List.append_assoc]⟩

/-- Sweep induction for C3: provided each IMM run so far has produced one
log record, every output write performed by the sweep reports exactly the
records of the runs completed before it. -/
theorem sweepLoop_writes (o : Oracles) (G : Graph) (cfg : Config)
    (hmodel : cfg.diffusionModel = "IC" ∨ cfg.diffusionModel = "LT")
    (nts : List Nat) :
    ∀ st : SweepState,
      countRunIMM st.events = st.log.length →
      writesMatchLog (sweepLoop o G cfg nts st).log st.events 0 →
      writesMatchLog (sweepLoop o G cfg nts st).log
        (sweepLoop o G cfg nts st).events 0 := by
  induction nts with
  | nil => intro st hcount h; simpa [sweepLoop] using h
  | cons nt rest ih =>
    intro st hcount h
    rw [sweepLoop_cons] at h ⊢
    obtain ⟨tag, r, hr, hiter⟩ := sweepIter_model o G cfg nt st hmodel
    obtain ⟨tail, htail⟩ :=
      sweepLoop_log_extends o G cfg rest (sweepIter o G cfg nt st)
    obtain ⟨rec, hrec⟩ := sweepIter_log o G cfg nt st
    have hevents : (sweepIter o G cfg nt st).events =
        st.events ++
          ((if nt = 1 then [] else [Event.setNumThreads nt]) ++
           [Event.runIMM tag
              (if nt = 1 then ExecTag.sequential else ExecTag.omp_parallel)
              st.gen r.1,
            Event.consoleInfo (if nt = 1 then "IMM squential" else "IMM parallel"),
            Event.writeOutput cfg.OutputFile
              (Json.arr (sweepIter o G cfg nt st).log)]) := by
      conv_lhs => rw [hiter]
      conv_rhs => rw [hiter]
    have hprem1 : countRunIMM (sweepIter o G cfg nt st).events =
        (sweepIter o G cfg nt st).log.length := by
      rw [hevents, hrec]
      by_cases h1 : nt = 1 <;> simp [h1, hcount]
    have htake : (sweepLoop o G cfg rest (sweepIter o G cfg nt st)).log.take
        (st.log.length + 1) = (sweepIter o G cfg nt st).log := by
      rw [htail, hrec]
      have hlen : (st.log ++ [rec]).length = st.log.length + 1 := by simp
      rw [← hlen, List.take_left]
    have hprem2 : writesMatchLog
        (sweepLoop o G cfg rest (sweepIter o G cfg nt st)).log
        (sweepIter o G cfg nt st).events 0 := by
      rw [hevents, writesMatchLog_append]
      refine ⟨h, ?_⟩
      by_cases h1 : nt = 1
      · subst h1
        simp [writesMatchLog, hcount, htake]
      · simp [h1, writesMatchLog, hcount, htake]
    exact ih (sweepIter o G cfg nt st) hprem1 hprem2

/-- C3: in every execution mode, each write to the output file has as
content the JSON array of exactly the records of the IMM computations
completed before that write, so written output never reports an
uncompleted computation and an abort mid-computation leaves no partial
result of that computation in the file. -/
theorem output_only_completed_runs (o : Oracles) (cfg : Config)
    (hmodel : cfg.diffusionModel = "IC" ∨ cfg.diffusionModel = "LT") :
    writesMatchLog (mainRun o cfg).log (mainRun o cfg).events 0 := by
  cases hvc : cudaValidation cfg with
  | error msg =>
    rw [mainRun_of_error o cfg msg hvc]
    simp [writesMatchLog]
  | ok w =>
    rw [mainRun_of_ok o cfg w hvc, mainBody_log, mainBody_events]
    rw [writesMatchLog_append]
    obtain ⟨-, hpc0, -, -, -, -, -⟩ := preEvents_shape o cfg w hvc
    have hcnt : countRunIMM (preEvents o cfg w ++
        [Event.openOutput cfg.OutputFile]) = 0 := by
      rw [countRunIMM_append, hpc0]; rfl
    constructor
    · rcases cudaValidation_ok_shape cfg w hvc with hsh | hsh <;> subst hsh <;>
        simp [preEvents, writesMatchLog]
    · rw [hcnt]
      by_cases hss : cfg.OMPStrongScaling = true
      · rw [branchCore_sweep o _ cfg hss]
        unfold sweepBranch
        exact sweepLoop_writes o (loadedGraph o cfg) cfg hmodel
          (countdown o.maxThreads) ⟨[], o.defaultRecord, samplingGenInit, 0, [], []⟩
          rfl (by simp [writesMatchLog])
      · rw [Bool.not_eq_true] at hss
        by_cases hp : cfg.parallel = true
        · rw [branchCore_par o _ cfg hss hp]
          obtain ⟨tag, hd⟩ := dispatchIMM_model o (loadedGraph o cfg) cfg
            samplingGenInit ExecTag.omp_parallel [] o.defaultRecord 0 hmodel
          unfold parBranch
          rw [hd]
          simp [writesMatchLog]
        · rw [Bool.not_eq_true] at hp
          by_cases hc : cfg.cuda_parallel = true
          · rw [branchCore_cuda o _ cfg hss hp hc]
            obtain ⟨tag, hd⟩ := cudaDispatch_model o (loadedGraph o cfg) cfg
              samplingGenInit hmodel
            unfold cudaBranch
            rw [hd]
            simp [writesMatchLog]
          · rw [Bool.not_eq_true] at hc
            rw [branchCore_seq o _ cfg hss hp hc]
            obtain ⟨tag, hd⟩ := dispatchIMM_model o (loadedGraph o cfg) cfg
              samplingGenInit ExecTag.sequential [] o.defaultRecord 0 hmodel
            unfold seqBranch
            rw [hd]
            simp [writesMatchLog]

/-- C3 witness: the sweep run of the sample oracles satisfies the
write-only-completed-runs property. -/
theorem output_only_completed_runs_witness :
    writesMatchLog (mainRun oEx cfgSweepIC).log (mainRun oEx cfgSweepIC).events 0 :=
  output_only_completed_runs oEx cfgSweepIC (Or.inl rfl)

/-- C4 (amended): every record in the execution log of a completed run
has exactly the fields `experimentRecordFields` — the claim's field list
**plus** the total-estimation-time field `"ThetaEstimation"` — in source
order; with a recognised model the log holds exactly one record per IMM
run; and everything written to the output file is a JSON array. -/
theorem experiment_record_fields (o : Oracles) (cfg : Config)
    (hmodel : cfg.diffusionModel = "IC" ∨ cfg.diffusionModel = "LT") :
    (∀ j ∈ (mainRun o cfg).log, jsonKeys j = experimentRecordFields) ∧
    (mainRun o cfg).log.length = countRunIMM (mainRun o cfg).events ∧
    (∀ p c, Event.writeOutput p c ∈ (mainRun o cfg).events →
      ∃ l, c = Json.arr l) := by
  cases hvc : cudaValidation cfg with
  | error msg =>
    rw [mainRun_of_error o cfg msg hvc]
    exact ⟨by simp, by simp [countRunIMM], by intro p c hpc; simp at hpc⟩
  | ok w =>
    rw [mainRun_of_ok o cfg w hvc, mainBody_log, mainBody_events]
    obtain ⟨-, hpc0, -, -, -, -, hpw⟩ := preEvents_shape o cfg w hvc
    by_cases hss : cfg.OMPStrongScaling = true
    · rw [branchCore_sweep o _ cfg hss]
      unfold sweepBranch
      obtain ⟨k1, k2, k3, k4⟩ := sweepLoop_records o (loadedGraph o cfg) cfg
        hmodel (countdown o.maxThreads)
        ⟨[], o.defaultRecord, samplingGenInit, 0, [], []⟩
        (by intro j hj; simp at hj) (by intro p c hpc; simp at hpc)
      refine ⟨k1, ?_, ?_⟩
      · rw [k2, countRunIMM_append, countRunIMM_append, hpc0, k3]
        simp [countRunIMM]
      · intro p c hpc
        rcases List.mem_append.mp hpc with hpc | hpc
        · rcases List.mem_append.mp hpc with hpc | hpc
          · exact absurd hpc (hpw p c)
          · simp at hpc
        · exact k4 p c hpc
    · rw [Bool.not_eq_true] at hss
      by_cases hp : cfg.parallel = true
      · rw [branchCore_par o _ cfg hss hp]
        obtain ⟨tag, hd⟩ := dispatchIMM_model o (loadedGraph o cfg) cfg
          samplingGenInit ExecTag.omp_parallel [] o.defaultRecord 0 hmodel
        unfold parBranch
        rw [hd]
        refine ⟨?_, ?_, ?_⟩
        · intro j hj
          rw [List.mem_singleton.mp hj]; exact jsonKeys_record ..
        · rw [countRunIMM_append, countRunIMM_append, hpc0]
          simp [countRunIMM]
        · intro p c hpc
          rcases List.mem_append.mp hpc with hpc | hpc
          · rcases List.mem_append.mp hpc with hpc | hpc
            · exact absurd hpc (hpw p c)
            · simp at hpc
          · simp at hpc
            exact ⟨_, hpc.2⟩
      · rw [Bool.not_eq_true] at hp
        by_cases hc : cfg.cuda_parallel = true
        · rw [branchCore_cuda o _ cfg hss hp hc]
          obtain ⟨tag, hd⟩ := cudaDispatch_model o (loadedGraph o cfg) cfg
            samplingGenInit hmodel
          unfold cudaBranch
          rw [hd]
          refine ⟨?_, ?_, ?_⟩
          · intro j hj
            rw [List.mem_singleton.mp hj]; exact jsonKeys_record ..
          · rw [countRunIMM_append, countRunIMM_append, hpc0]
            simp [countRunIMM]
          · intro p c hpc
            rcases List.mem_append.mp hpc with hpc | hpc
            · rcases List.mem_append.mp hpc with hpc | hpc
              · exact absurd hpc (hpw p c)
              · simp at hpc
            · simp at hpc
              exact ⟨_, hpc.2⟩
        · rw [Bool.not_eq_true] at hc
          rw [branchCore_seq o _ cfg hss hp hc]
          obtain ⟨tag, hd⟩ := dispatchIMM_model o (loadedGraph o cfg) cfg
            samplingGenInit ExecTag.sequential [] o.defaultRecord 0 hmodel
          unfold seqBranch
          rw [hd]
          refine ⟨?_, ?_, ?_⟩
          · intro j hj
            rw [List.mem_singleton.mp hj]; exact jsonKeys_record ..
          · rw [countRunIMM_append, countRunIMM_append, hpc0]
            simp [countRunIMM]
          · intro p c hpc
            rcases List.mem_append.mp hpc with hpc | hpc
            · rcases List.mem_append.mp hpc with hpc | hpc
              · exact absurd hpc (hpw p c)
              · simp at hpc
            · simp at hpc
              exact ⟨_, hpc.2⟩

/-- C4 counterexample: the record emitted by a completed sequential IC
run carries the field `"ThetaEstimation"`, which is absent from the
claim's field enumeration, so the emitted record does not consist of
exactly the claimed fields. -/
theorem experiment_record_fields_counterexample :
    (mainRun oEx cfgSeqIC).log.map jsonKeys = [experimentRecordFields] ∧
    "ThetaEstimation" ∈ experimentRecordFields ∧
    "ThetaEstimation" ∉ claimedRecordFields ∧
    experimentRecordFields ≠ claimedRecordFields :=
  ⟨rfl, by decide, by decide, by decide⟩

/-- C4 witness: in the sequential IC sample run the log holds exactly one
record for the one IMM invocation. -/
theorem experiment_record_fields_witness :
    (mainRun oEx cfgSeqIC).log.length = countRunIMM (mainRun oEx cfgSeqIC).events :=
  (experiment_record_fields oEx cfgSeqIC (Or.inl rfl)).2.1

/-- C10: whenever the CUDA branch is the one that executes (strong
scaling and `-p` off, `--cuda-parallel` on, validation passed), every
record in the execution log carries thread count `1`, whatever the
streaming-worker and GPU-worker counts are. -/
theorem cuda_record_numthreads_one (o : Oracles) (cfg : Config)
    (hss : cfg.OMPStrongScaling = false) (hp : cfg.parallel = false)
    (hc : cfg.cuda_parallel = true)
    (hval : ∃ w, cudaValidation cfg = Except.ok w) :
    ∀ j ∈ (mainRun o cfg).log, jsonLookup j "NumThreads" = some (Json.nat 1) := by
  obtain ⟨w, hw⟩ := hval
  rw [mainRun_of_ok o cfg w hw, mainBody_log,
      branchCore_cuda o _ cfg hss hp hc]
  intro j hj
  unfold cudaBranch at hj
  simp only [List.mem_singleton] at hj
  subst hj
  exact jsonLookup_record_numThreads ..

/-- C10 witness: in the CUDA IC run of the sample oracles the single
emitted record has `NumThreads = 1` even though 1 streaming worker was
configured. -/
theorem cuda_record_numthreads_one_witness :
    jsonLookup (GetExperimentRecord cfgCudaIC recEx
      (Graph.convertID graphEx [0, 2])) "NumThreads" = some (Json.nat 1) :=
  cuda_record_numthreads_one oEx cfgCudaIC rfl rfl rfl ⟨_, rfl⟩ _
    (List.Mem.head _)

/-- Sweep iterations never emit a graph-load event. -/
theorem sweepIter_loadGens (o : Oracles) (G : Graph) (cfg : Config) (nt : Nat)
    (st : SweepState) :
    loadGens (sweepIter o G cfg nt st).events = loadGens st.events := by
  unfold sweepIter dispatchIMM
  by_cases h1 : nt = 1 <;> by_cases hic : cfg.diffusionModel = "IC" <;>
    by_cases hlt : cfg.diffusionModel = "LT" <;>
    simp [h1, hic, hlt, loadGens, List.filterMap_cons]

theorem sweepLoop_loadGens (o : Oracles) (G : Graph) (cfg : Config)
    (nts : List Nat) :
    ∀ st : SweepState,
      loadGens (sweepLoop o G cfg nts st).events = loadGens st.events := by
  induction nts with
  | nil => intro st; rfl
  | cons nt rest ih =>
    intro st
    rw [sweepLoop_cons, ih, sweepIter_loadGens]

/-- With an unrecognised diffusion-model string the sweep performs no IMM
invocation at all. -/
theorem sweepLoop_no_runs (o : Oracles) (G : Graph) (cfg : Config)
    (h1 : cfg.diffusionModel ≠ "IC") (h2 : cfg.diffusionModel ≠ "LT")
    (nts : List Nat) :
    ∀ st : SweepState,
      countRunIMM (sweepLoop o G cfg nts st).events = countRunIMM st.events := by
  induction nts with
  | nil => intro st; rfl
  | cons nt rest ih =>
    intro st
    rw [sweepLoop_cons, ih]
    unfold sweepIter dispatchIMM
    by_cases hq : nt = 1 <;> simp [hq, h1, h2]

/-- Sweep iterations only append events. -/
theorem sweepIter_events_extends (o : Oracles) (G : Graph) (cfg : Config)
    (nt : Nat) (st : SweepState) :
    ∃ tail, (sweepIter o G cfg nt st).events = st.events ++ tail := by
  unfold sweepIter
  by_cases h1 : nt = 1 <;> simp [h1]

theorem sweepLoop_events_extends (o : Oracles) (G : Graph) (cfg : Config)
    (nts : List Nat) :
    ∀ st : SweepState,
      ∃ tail, (sweepLoop o G cfg nts st).events = st.events ++ tail := by
  induction nts with
  | nil => intro st; exact ⟨[], by simp [sweepLoop]⟩
  | cons nt rest ih =>
    intro st
    rw [sweepLoop_cons]
    obtain ⟨t2, ht2⟩ := ih (sweepIter o G cfg nt st)
    obtain ⟨t1, ht1⟩ := sweepIter_events_extends o G cfg nt st
    exact ⟨t1 ++ t2, by rw [ht2, ht1, List.append_assoc]⟩

/-- The first IMM invocation of a nonempty sweep receives the initial
generator state. -/
theorem sweepLoop_first_gen (o : Oracles) (G : Graph) (cfg : Config)
    (hmodel : cfg.diffusionModel = "IC" ∨ cfg.diffusionModel = "LT")
    (nt : Nat) (rest : List Nat) (st : SweepState)
    (h0 : runIMMGens st.events = []) :
    (runIMMGens (sweepLoop o G cfg (nt :: rest) st).events).head? =
      some st.gen := by
  rw [sweepLoop_cons]
  obtain ⟨tag, r, hr, hiter⟩ := sweepIter_model o G cfg nt st hmodel
  obtain ⟨tail, htail⟩ :=
    sweepLoop_events_extends o G cfg rest (sweepIter o G cfg nt st)
  have hevents : (sweepIter o G cfg nt st).events =
      st.events ++
        ((if nt = 1 then [] else [Event.setNumThreads nt]) ++
         [Event.runIMM tag
            (if nt = 1 then ExecTag.sequential else ExecTag.omp_parallel)
            st.gen r.1,
          Event.consoleInfo (if nt = 1 then "IMM squential" else "IMM parallel"),
          Event.writeOutput cfg.OutputFile
            (Json.arr (sweepIter o G cfg nt st).log)]) := by
    conv_lhs => rw [hiter]
    conv_rhs => rw [hiter]
  have hg : runIMMGens (sweepIter o G cfg nt st).events = [st.gen] := by
    rw [hevents, runIMMGens_append, h0]
    by_cases h1 : nt = 1 <;>
      simp [h1, runIMMGens, List.filterMap_cons]
  rw [htail, runIMMGens_append, hg]
  rfl

/-- C7 (amended): the driver compares the diffusion-model string only
against `"IC"` and `"LT"`; any other string is not rejected — no IMM
computation is invoked, yet the process still creates the output file and
completes with exit status `0`. -/
theorem unknown_model_not_rejected (o : Oracles) (cfg : Config)
    (h1 : cfg.diffusionModel ≠ "IC") (h2 : cfg.diffusionModel ≠ "LT")
    (hval : ∃ w, cudaValidation cfg = Except.ok w) :
    (mainRun o cfg).exitCode = 0 ∧
    countRunIMM (mainRun o cfg).events = 0 ∧
    cfg.OutputFile ∈ openedOutputs (mainRun o cfg).events := by
  obtain ⟨w, hw⟩ := hval
  rw [mainRun_of_ok o cfg w hw]
  obtain ⟨-, hpc0, -, -, -, hop, -⟩ := preEvents_shape o cfg w hw
  refine ⟨rfl, ?_, ?_⟩
  · rw [mainBody_events, countRunIMM_append, countRunIMM_append, hpc0]
    have hopen : countRunIMM [Event.openOutput cfg.OutputFile] = 0 := rfl
    rw [hopen]
    by_cases hss : cfg.OMPStrongScaling = true
    · rw [branchCore_sweep o _ cfg hss]
      unfold sweepBranch
      rw [sweepLoop_no_runs o _ cfg h1 h2]
      rfl
    · rw [Bool.not_eq_true] at hss
      by_cases hp : cfg.parallel = true
      · rw [branchCore_par o _ cfg hss hp]
        unfold parBranch dispatchIMM
        simp [h1, h2]
      · rw [Bool.not_eq_true] at hp
        by_cases hc : cfg.cuda_parallel = true
        · rw [branchCore_cuda o _ cfg hss hp hc]
          unfold cudaBranch cudaDispatch
          simp [h1, h2]
        · rw [Bool.not_eq_true] at hc
          rw [branchCore_seq o _ cfg hss hp hc]
          unfold seqBranch dispatchIMM
          simp [h1, h2]
  · rw [mainBody_events, openedOutputs_append, openedOutputs_append, hop]
    have hopen : openedOutputs [Event.openOutput cfg.OutputFile] =
        [cfg.OutputFile] := rfl
    rw [hopen]
    simp

/-- C7 counterexample: with the unrecognised model string `"threshold"`
the process completes a run — exit status `0`, the output file created,
one (default-valued) record in the log — instead of rejecting the
configuration. -/
theorem unknown_model_not_rejected_counterexample :
    cfgBadModel.diffusionModel ≠ "IC" ∧ cfgBadModel.diffusionModel ≠ "LT" ∧
    (mainRun oEx cfgBadModel).exitCode = 0 ∧
    (mainRun oEx cfgBadModel).log.length = 1 ∧
    openedOutputs (mainRun oEx cfgBadModel).events = ["output.json"] :=
  ⟨by decide, by decide, rfl, rfl, rfl⟩

/-- C7 witness: the amended behaviour at the concrete bad-model
configuration. -/
theorem unknown_model_not_rejected_witness :
    (mainRun oEx cfgBadModel).exitCode = 0 ∧
    countRunIMM (mainRun oEx cfgBadModel).events = 0 ∧
    cfgBadModel.OutputFile ∈ openedOutputs (mainRun oEx cfgBadModel).events :=
  unknown_model_not_rejected oEx cfgBadModel (by decide) (by decide) ⟨[], rfl⟩

/-- C8 (amended): `-k,--seed-set-size` is a required option (and parses
into a C++ `size_t`, hence unsigned), but no positivity check exists
anywhere: any accepted configuration — in particular one with `k = 0` —
runs to completion with exit status `0`. -/
theorem k_required_no_positivity_check (o : Oracles) (cfg : Config)
    (hval : ∃ w, cudaValidation cfg = Except.ok w) :
    (∀ opt ∈ algorithmOptions, opt.names = "-k,--seed-set-size" →
      opt.required = true) ∧
    (mainRun o cfg).exitCode = 0 := by
  obtain ⟨w, hw⟩ := hval
  rw [mainRun_of_ok o cfg w hw]
  exact ⟨by decide, rfl⟩

/-- C8 counterexample: `k = 0` is not positive, yet the configuration is
accepted, the IMM computation runs once with it, and the process exits
`0` — non-positive `k` is not rejected before the computation. -/
theorem k_required_no_positivity_check_counterexample :
    algorithmOptions.get? 0 =
      some ⟨"-k,--seed-set-size", true, false, "Algorithm Options"⟩ ∧
    cfgK0.k = 0 ∧ ¬0 < cfgK0.k ∧
    (mainRun oEx cfgK0).exitCode = 0 ∧
    countRunIMM (mainRun oEx cfgK0).events = 1 :=
  ⟨rfl, rfl, by decide, rfl, rfl⟩

/-- C8 witness: the amended statement applied at the `k = 0`
configuration. -/
theorem k_required_no_positivity_check_witness :
    (mainRun oEx cfgK0).exitCode = 0 :=
  (k_required_no_positivity_check oEx cfgK0 ⟨[], rfl⟩).2

/-- C9: the RNG initialisation is constant and independent of the whole
command-line configuration: every graph load receives `lcg64` seeded `0`
and split to sub-stream 0 of 2, and the first IMM invocation of any run
receives `lcg64` seeded `0` and split to sub-stream 1 of 2.  Since in
this embedding an execution is a function of the configuration and the
external collaborators only, two executions with the same configuration
and thread count produce identical seed lists and sample-size sequences,
and no command-line option can alter the seeds. -/
theorem rng_fixed_seeding (o : Oracles) (cfg : Config)
    (hmodel : cfg.diffusionModel = "IC" ∨ cfg.diffusionModel = "LT") :
    weightGenInit = ⟨0, 2, 0⟩ ∧
    samplingGenInit = ⟨0, 2, 1⟩ ∧
    (∀ g ∈ loadGens (mainRun o cfg).events, g = weightGenInit) ∧
    (∀ g, (runIMMGens (mainRun o cfg).events).head? = some g →
      g = samplingGenInit) := by
  refine ⟨rfl, rfl, ?_, ?_⟩
  · cases hvc : cudaValidation cfg with
    | error msg =>
      rw [mainRun_of_error o cfg msg hvc]
      intro g hg
      simp [loadGens, List.filterMap_cons] at hg
    | ok w =>
      rw [mainRun_of_ok o cfg w hvc, mainBody_events]
      obtain ⟨-, -, -, -, hld, -, -⟩ := preEvents_shape o cfg w hvc
      rw [loadGens_append, loadGens_append, hld]
      have hopen : loadGens [Event.openOutput cfg.OutputFile] = [] := rfl
      rw [hopen]
      have hcore : loadGens (branchCore o (loadedGraph o cfg) cfg).1 = [] := by
        by_cases hss : cfg.OMPStrongScaling = true
        · rw [branchCore_sweep o _ cfg hss]
          unfold sweepBranch
          rw [sweepLoop_loadGens]
          rfl
        · rw [Bool.not_eq_true] at hss
          by_cases hp : cfg.parallel = true
          · rw [branchCore_par o _ cfg hss hp]
            obtain ⟨tag, hd⟩ := dispatchIMM_model o (loadedGraph o cfg) cfg
              samplingGenInit ExecTag.omp_parallel [] o.defaultRecord 0 hmodel
            unfold parBranch
            rw [hd]
            simp [loadGens, List.filterMap_cons]
          · rw [Bool.not_eq_true] at hp
            by_cases hc : cfg.cuda_parallel = true
            · rw [branchCore_cuda o _ cfg hss hp hc]
              obtain ⟨tag, hd⟩ := cudaDispatch_model o (loadedGraph o cfg) cfg
                samplingGenInit hmodel
              unfold cudaBranch
              rw [hd]
              simp [loadGens, List.filterMap_cons]
            · rw [Bool.not_eq_true] at hc
              rw [branchCore_seq o _ cfg hss hp hc]
              obtain ⟨tag, hd⟩ := dispatchIMM_model o (loadedGraph o cfg) cfg
                samplingGenInit ExecTag.sequential [] o.defaultRecord 0 hmodel
              unfold seqBranch
              rw [hd]
              simp [loadGens, List.filterMap_cons]
      rw [hcore]
      intro g hg
      simpa using hg
  · cases hvc : cudaValidation cfg with
    | error msg =>
      rw [mainRun_of_error o cfg msg hvc]
      intro g hg
      simp [runIMMGens, List.filterMap_cons] at hg
    | ok w =>
      rw [mainRun_of_ok o cfg w hvc, mainBody_events]
      obtain ⟨-, -, -, hrg, -, -, -⟩ := preEvents_shape o cfg w hvc
      rw [runIMMGens_append, runIMMGens_append, hrg]
      have hopen : runIMMGens [Event.openOutput cfg.OutputFile] = [] := rfl
      rw [hopen]
      simp only [List.nil_append]
      by_cases hss : cfg.OMPStrongScaling = true
      · rw [branchCore_sweep o _ cfg hss]
        unfold sweepBranch
        cases hn : countdown o.maxThreads with
        | nil =>
          intro g hg
          simp [sweepLoop, runIMMGens] at hg
        | cons nt rest =>
          rw [sweepLoop_first_gen o (loadedGraph o cfg) cfg hmodel nt rest
            ⟨[], o.defaultRecord, samplingGenInit, 0, [], []⟩ rfl]
          intro g hg
          cases hg
          rfl
      · rw [Bool.not_eq_true] at hss
        by_cases hp : cfg.parallel = true
        · rw [branchCore_par o _ cfg hss hp]
          obtain ⟨tag, hd⟩ := dispatchIMM_model o (loadedGraph o cfg) cfg
            samplingGenInit ExecTag.omp_parallel [] o.defaultRecord 0 hmodel
          unfold parBranch
          rw [hd]
          intro g hg
          simp [runIMMGens, List.filterMap_cons] at hg
          exact hg.symm
        · rw [Bool.not_eq_true] at hp
          by_cases hc : cfg.cuda_parallel = true
          · rw [branchCore_cuda o _ cfg hss hp hc]
            obtain ⟨tag, hd⟩ := cudaDispatch_model o (loadedGraph o cfg) cfg
              samplingGenInit hmodel
            unfold cudaBranch
            rw [hd]
            intro g hg
            simp [runIMMGens, List.filterMap_cons] at hg
            exact hg.symm
          · rw [Bool.not_eq_true] at hc
            rw [branchCore_seq o _ cfg hss hp hc]
            obtain ⟨tag, hd⟩ := dispatchIMM_model o (loadedGraph o cfg) cfg
              samplingGenInit ExecTag.sequential [] o.defaultRecord 0 hmodel
            unfold seqBranch
            rw [hd]
            intro g hg
            simp [runIMMGens, List.filterMap_cons] at hg
            exact hg.symm

/-- C9 witness: in the sequential IC sample run, the graph loader
received exactly the constant weight generator and the first (only) IMM
invocation the constant sampling generator. -/
theorem rng_fixed_seeding_witness :
    (∀ g ∈ loadGens (mainRun oEx cfgSeqIC).events, g = weightGenInit) ∧
    (∀ g, (runIMMGens (mainRun oEx cfgSeqIC).events).head? = some g →
      g = samplingGenInit) :=
  ⟨(rng_fixed_seeding oEx cfgSeqIC (Or.inl rfl)).2.2.1,
   (rng_fixed_seeding oEx cfgSeqIC (Or.inl rfl)).2.2.2⟩

end Ripples
